import Mathlib

/-!
Verification development for the PRTG uptime-report extractor
(`src/prtg-uptime-extractor.py` and companions).

The Python sources are shallowly embedded below.  Page text (the output of
the external PDF-to-text collaborator) is modelled as a `String` per page;
a document is a `List String` of page texts.  Python strings are modelled
as Lean `String` (a list of characters); the regular expressions used by
the source are embedded by deterministic maximal-munch scanners that are
proved-equivalent-by-construction to the leftmost-match semantics of the
concrete patterns used (each character class in those patterns is disjoint
from its neighbour, so backtracking never changes the match).
-/

/-- Python `str.isspace`-style test for the characters matched by the
regex class `\s` (space, tab, newline, carriage return, vertical tab,
form feed). -/
def pyIsSpace (c : Char) : Bool :=
  c = ' ' || c = '\t' || c = '\n' || c = '\r' || c = '\x0b' || c = '\x0c'

/-- Substring test on character lists: Python's `needle in haystack`. -/
def hasSubChars (needle : List Char) : List Char → Bool
  | [] => needle.isEmpty
  | c :: rest => needle.isPrefixOf (c :: rest) || hasSubChars needle rest

/-- Python `needle in haystack` on strings. -/
def hasSubStr (needle haystack : String) : Bool :=
  hasSubChars needle.data haystack.data

/-- Python `str.strip()` on a character list (leading and trailing
whitespace removed). -/
def pyStripChars (l : List Char) : List Char :=
  (((l.dropWhile pyIsSpace).reverse).dropWhile pyIsSpace).reverse

/-- Python `str.strip()`. -/
def pyStrip (s : String) : String :=
  String.mk (pyStripChars s.data)

/-- Python `s.endswith(suffix)`. -/
def pyEndsWith (s suffix : String) : Bool :=
  suffix.data.isSuffixOf s.data

/-- Python `text.split('\n')` on a character list: always at least one
(possibly empty) field. -/
def splitLinesChars : List Char → List (List Char)
  | [] => [[]]
  | c :: rest =>
    if c = '\n' then [] :: splitLinesChars rest
    else
      match splitLinesChars rest with
      | [] => [[c]]
      | l :: ls => (c :: l) :: ls

/-- Python `text.split('\n')`. -/
def splitLines (s : String) : List String :=
  (splitLinesChars s.data).map String.mk

/-- Python `s.split(sep)` for a non-empty separator `sep` (non-overlapping
occurrences, left to right).  An empty separator never splits (Python
raises there; the source only calls this with non-empty literals). -/
def splitOnChars (sep : List Char) : List Char → List (List Char)
  | [] => [[]]
  | c :: rest =>
    if sep ≠ [] ∧ sep.isPrefixOf (c :: rest) then
      [] :: splitOnChars sep (List.drop (sep.length - 1) rest)
    else
      match splitOnChars sep rest with
      | [] => [[c]]
      | l :: ls => (c :: l) :: ls
termination_by l => l.length
decreasing_by
  · simp only [List.length_drop, List.length_cons]
    omega
  · simp only [List.length_cons]
    omega

/-!
## DurationCodec: `duration_to_seconds`

The source extracts each of the four components with
`re.search(r'(\d+)u', duration_str)` for a unit letter `u`.  The leftmost
match of `(\d+)u` captures the maximal digit run that immediately precedes
the first occurrence of `u` that is preceded by at least one digit.
`findCompAux` scans once, accumulating the value of the current digit run
(`none` when the previous character was not a digit), and returns the
accumulated value at the first such `u`.
-/

/-- One-pass scanner for the leftmost `(\d+)u` match: `acc` holds the
value of the digit run ending just before the current position. -/
def findCompAux (u : Char) : Option Nat → List Char → Option Nat
  | _, [] => none
  | acc, c :: rest =>
    if c.isDigit then
      findCompAux u (some (acc.getD 0 * 10 + (c.toNat - 48))) rest
    else if c = u then
      match acc with
      | some v => some v
      | none => findCompAux u none rest
    else
      findCompAux u none rest

/-- `duration_to_seconds` from the source: decodes a token such as
`"06d 23h 59m 41s"` into total seconds; empty input decodes to 0; each
component is searched for independently and contributes its weighted
value; absent components contribute zero. -/
def duration_to_seconds (duration_str : String) : Nat :=
  if duration_str = "" then 0
  else
    (findCompAux 'd' none duration_str.data).getD 0 * 86400 +
    (findCompAux 'h' none duration_str.data).getD 0 * 3600 +
    (findCompAux 'm' none duration_str.data).getD 0 * 60 +
    (findCompAux 's' none duration_str.data).getD 0

/-- Decimal rendering of a natural number, most significant digit first
(the digits Python's `f"{n}"` produces, without sign or padding). -/
def natDigits (n : Nat) : List Char :=
  if h : n < 10 then [Nat.digitChar n]
  else natDigits (n / 10) ++ [Nat.digitChar (n % 10)]
termination_by n
decreasing_by
  exact Nat.div_lt_self (by omega) (by omega)

/-- The token built from the day/hour/minute/second breakdown of `s`
exactly as `seconds_to_duration_format` computes the breakdown
(`days = s / 86400`, `hours = s % 86400 / 3600`, `minutes = s % 3600 / 60`,
`seconds = s % 60`), each component rendered as a decimal integer followed
by its unit letter. -/
def breakdownToken (s : Nat) : String :=
  String.mk
    (natDigits (s / 86400) ++ 'd' :: ' ' ::
      (natDigits (s % 86400 / 3600) ++ 'h' :: ' ' ::
        (natDigits (s % 3600 / 60) ++ 'm' :: ' ' ::
          (natDigits (s % 60) ++ ['s']))))

/-- A duration token assembled from an ordered list of
(value, unit-letter) components, separated by single spaces. -/
def tokenChars : List (Nat × Char) → List Char
  | [] => []
  | [p] => natDigits p.1 ++ [p.2]
  | p :: q :: rest => natDigits p.1 ++ p.2 :: ' ' :: tokenChars (q :: rest)

/-- First component value carrying unit `u` in a component list. -/
def findVal (u : Char) : List (Nat × Char) → Option Nat
  | [] => none
  | p :: rest => if p.2 = u then some p.1 else findVal u rest

/-- Seconds-weight of a unit letter. -/
def unitWeight (c : Char) : Nat :=
  if c = 'd' then 86400
  else if c = 'h' then 3600
  else if c = 'm' then 60
  else if c = 's' then 1
  else 0

/-!
## RecordLocator: the statistics-line patterns

`up_pattern = r'Up:\s*([\d\.]+)\s*(%)\s*\[([^\]]+)\]'` and the analogous
`down_pattern` are embedded as maximal-munch scanners.  Every boundary in
these patterns is between disjoint character classes, so the greedy
backtracking match is unique and equals maximal munch; the leftmost match
of the whole pattern must start at an occurrence of the literal key
(`"Up:"` / `"Down:"`), so `searchKeyTriple` tries the occurrences of the
key from the left and returns the first whose tail matches.  The second
capture group `(%)` always captures the literal `"%"`.
-/

/-- Characters matched by the class `[\d\.]`. -/
def isNumDot (c : Char) : Bool := c.isDigit || c = '.'

/-- Match of `\s*([\d\.]+)\s*(%)\s*\[([^\]]+)\]` at the start of `l`,
returning the percentage and duration captures. -/
def matchTripleTail (l : List Char) : Option (List Char × List Char) :=
  let l1 := l.dropWhile pyIsSpace
  let num := l1.takeWhile isNumDot
  if num = [] then none
  else
    match (l1.dropWhile isNumDot).dropWhile pyIsSpace with
    | '%' :: l2 =>
      match l2.dropWhile pyIsSpace with
      | '[' :: l3 =>
        let dur := l3.takeWhile (fun c => c ≠ ']')
        if dur = [] then none
        else if (l3.dropWhile (fun c => c ≠ ']')).isEmpty then none
        else some (num, dur)
      | _ => none
    | _ => none

/-- Leftmost match of `key` followed by the triple tail: tries each
occurrence of the literal `key` from the left. -/
def searchKeyTriple (key : List Char) : List Char → Option (List Char × List Char)
  | [] => none
  | c :: rest =>
    if key.isPrefixOf (c :: rest) then
      match matchTripleTail (List.drop key.length (c :: rest)) with
      | some r => some r
      | none => searchKeyTriple key rest
    else searchKeyTriple key rest

/-- `re.search(up_pattern, line)`: percentage and duration captures. -/
def searchUp (line : String) : Option (String × String) :=
  (searchKeyTriple ('U' :: 'p' :: [':']) line.data).map
    (fun r => (String.mk r.1, String.mk r.2))

/-- `re.search(down_pattern, line)`: percentage and duration captures. -/
def searchDown (line : String) : Option (String × String) :=
  (searchKeyTriple ('D' :: 'o' :: 'w' :: 'n' :: [':']) line.data).map
    (fun r => (String.mk r.1, String.mk r.2))

/-- One output row (the Python result dict).  The percentage/unit/duration
fields hold the raw regex captures; the four context fields are absent
(`none`) unless the context scan set them; `pagina` is 1-based. -/
structure UptimeRecord where
  archivo_pdf : String
  url : String
  uptime_porcentaje : String
  uptime_unidad : String
  uptime_duracion : String
  downtime_porcentaje : String
  downtime_unidad : String
  downtime_duracion : String
  pagina : Nat
  periodo_reporte : Option String
  horas_reporte : Option String
  tipo_sensor : Option String
  tiempo_carga_promedio : Option String
deriving DecidableEq

/-- `lines[k].split(marker)[1].strip()` (only evaluated when `marker`
occurs in the line, so index 1 exists). -/
def splitField (marker line : String) : String :=
  pyStrip (String.mk ((splitOnChars marker.data line.data).getD 1 []))

/-- `lines[k].split(":")[-1].strip()`. -/
def lastColonField (line : String) : String :=
  pyStrip (String.mk ((splitOnChars [':'] line.data).getLastD []))

/-- One step of the context scan (`elif` chain of the source): looks at
line `k` and overwrites at most one context field. -/
def enrichLine (lines : List String) (r : UptimeRecord) (k : Nat) : UptimeRecord :=
  if hasSubStr "Report Time Span:" (lines.getD k "") then
    { r with periodo_reporte := some (splitField "Report Time Span:" (lines.getD k "")) }
  else if hasSubStr "Report Hours:" (lines.getD k "") then
    { r with horas_reporte := some (splitField "Report Hours:" (lines.getD k "")) }
  else if hasSubStr "Sensor Type:" (lines.getD k "") then
    { r with tipo_sensor := some (splitField "Sensor Type:" (lines.getD k "")) }
  else if hasSubStr "Average (Loading time):" (lines.getD k "")
      || hasSubStr "Average (Loading Time):" (lines.getD k "") then
    { r with tiempo_carga_promedio := some (lastColonField (lines.getD k "")) }
  else r

/-- Context scan over the line-index window `[lo, hi)`. -/
def enrichRange (lines : List String) (lo hi : Nat) (r : UptimeRecord) : UptimeRecord :=
  (List.range' lo (hi - lo)).foldl (enrichLine lines) r

/-- First `some` produced by `f` over a list, threading the element index
(a `for i, x in enumerate(xs)` loop with an early `return`). -/
def firstSomeIdx {α β : Type} (f : Nat → α → Option β) : Nat → List α → Option β
  | _, [] => none
  | i, a :: rest =>
    match f i a with
    | some b => some b
    | none => firstSomeIdx f (i + 1) rest

/-- The statistics-line attempt at line `j` (discovery of the marker plus
both pattern matches; both sides must match). -/
def statsAt (lines : List String) (j : Nat) : Option (String × String × String × String) :=
  let lj := lines.getD j ""
  if hasSubStr "Uptime Stats:" lj then
    match searchUp lj, searchDown lj with
    | some up, some dn => some (up.1, up.2, dn.1, dn.2)
    | _, _ => none
  else none

/-- `for j in range(i, min(i + 10, len(lines)))`: the first line of the
window that carries the statistics marker and parses on both sides. -/
def findStatsIn (lines : List String) (i : Nat) : Option (String × String × String × String) :=
  (List.range' i (min (i + 10) lines.length - i)).findSome? (statsAt lines)

/-- Per-line attempt of single-target mode (`extract_uptime_stats`): the
declaration-marker test, the exact-target test, the subpath/suffix
disambiguation guard, then the forward statistics window and the context
scan over `[i-5, min(i+15, len))` (Python iterates from `i-5` with a
`k >= 0` guard, i.e. effectively from `max(0, i-5)`). -/
def tryLine (pdfName target : String) (pageNum : Nat) (lines : List String)
    (i : Nat) (line : String) : Option UptimeRecord :=
  if hasSubStr "Probe, Group, Device:" line && hasSubStr target line then
    if !hasSubStr "/tramites" line && !hasSubStr "/educacion" line
        && pyEndsWith (pyStrip line) target then
      match findStatsIn lines i with
      | some (up_p, up_d, dn_p, dn_d) =>
        some (enrichRange lines (i - 5) (min (i + 15) lines.length)
          { archivo_pdf := pdfName, url := target,
            uptime_porcentaje := up_p, uptime_unidad := "%", uptime_duracion := up_d,
            downtime_porcentaje := dn_p, downtime_unidad := "%", downtime_duracion := dn_d,
            pagina := pageNum + 1,
            periodo_reporte := none, horas_reporte := none,
            tipo_sensor := none, tiempo_carga_promedio := none })
      | none => none
    else none
  else none

/-- Single-target attempt on one page: only entered when the page text
contains the target; scans the lines in order and returns the first
line's successful attempt. -/
def tryPage (pdfName target : String) (pageNum : Nat) (text : String) : Option UptimeRecord :=
  if hasSubStr target text then
    let lines := splitLines text
    firstSomeIdx (fun i line => tryLine pdfName target pageNum lines i line) 0 lines
  else none

/-- `extract_uptime_stats` from the source: iterates the pages in order
and returns at the first successful per-page attempt (the loop has no
`break` on a failed attempt, so it keeps going to later pages). -/
def extract_uptime_stats (pdfName : String) (pages : List String)
    (target : String) : Option UptimeRecord :=
  firstSomeIdx (fun pageNum text => tryPage pdfName target pageNum text) 0 pages

/-!
## Discovery mode: `extract_all_urls_from_pdf`
-/

/-- The URL classifier of the discovery loop: the fixed `if/elif` chain,
in source order, applied to a declaration-marker line.  `none` when the
line carries no recognized target literal (the source then leaves
`current_url` unchanged; it also tracks a `current_probe_line` variable
there that is never read afterwards, which is omitted here). -/
def classifyURL (line : String) : Option String :=
  if hasSubStr "buenosaires.gob.ar" line then
    if hasSubStr "> https://buenosaires.gob.ar/" line then
      some "https://buenosaires.gob.ar/"
    else if hasSubStr "buenosaires.gob.ar/tramites" line then
      some "buenosaires.gob.ar/tramites"
    else if hasSubStr "buenosaires.gob.ar/educacion" line then
      some "buenosaires.gob.ar/educacion"
    else if hasSubStr "nba-drupal.buenosaires.gob.ar" line then
      some "nba-drupal.buenosaires.gob.ar"
    else if hasSubStr "ash.buenosaires.gob.ar" line then
      some "ash.buenosaires.gob.ar/"
    else none
  else none

/-- One iteration of the per-line loop body of
`extract_all_urls_from_pdf` (line index `i`, current target `cur`,
document-scoped de-duplication set `processed`, accumulated `results`):
a declaration-marker line reclassifies the current target (or leaves it
unchanged when unrecognized); otherwise a statistics-marker line with a
truthy (Python: non-`None`, non-empty) current target that is not yet in
the de-duplication set and with both side patterns matching emits one
record (context window `[max(0, i-10), min(i+10, len))`) and marks the
target as seen; every other line changes nothing. -/
def lineStep (pdfName : String) (lines : List String) (pageNum : Nat) (i : Nat)
    (cur : Option String) (processed : List String) (results : List UptimeRecord)
    (line : String) : Option String × List String × List UptimeRecord :=
  if hasSubStr "Probe, Group, Device:" line then
    (match classifyURL line with
      | some u => some u
      | none => cur, processed, results)
  else if hasSubStr "Uptime Stats:" line then
    match cur with
    | some u =>
      if u = "" then (cur, processed, results)
      else if processed.contains u then (cur, processed, results)
      else
        match searchUp line, searchDown line with
        | some up, some dn =>
          (cur, processed ++ [u],
            results ++ [enrichRange lines (i - 10) (min (i + 10) lines.length)
              { archivo_pdf := pdfName, url := u,
                uptime_porcentaje := up.1, uptime_unidad := "%", uptime_duracion := up.2,
                downtime_porcentaje := dn.1, downtime_unidad := "%", downtime_duracion := dn.2,
                pagina := pageNum + 1,
                periodo_reporte := none, horas_reporte := none,
                tipo_sensor := none, tiempo_carga_promedio := none }])
        | _, _ => (cur, processed, results)
    | none => (cur, processed, results)
  else (cur, processed, results)

/-- The per-line loop of `extract_all_urls_from_pdf` on one page:
`cur` is reset to `none` at each page start by the caller. -/
def processLines (pdfName : String) (lines : List String) (pageNum : Nat) :
    Nat → Option String → List String → List UptimeRecord → List String →
    List String × List UptimeRecord
  | _, _, processed, results, [] => (processed, results)
  | i, cur, processed, results, line :: rest =>
    processLines pdfName lines pageNum (i + 1)
      (lineStep pdfName lines pageNum i cur processed results line).1
      (lineStep pdfName lines pageNum i cur processed results line).2.1
      (lineStep pdfName lines pageNum i cur processed results line).2.2 rest

/-- The page loop of `extract_all_urls_from_pdf`: the de-duplication set
and results persist across pages; `current_url` restarts at `none` on
every page. -/
def processPages (pdfName : String) :
    Nat → List String × List UptimeRecord → List String → List String × List UptimeRecord
  | _, st, [] => st
  | pageNum, (processed, results), text :: rest =>
    processPages pdfName (pageNum + 1)
      (processLines pdfName (splitLines text) pageNum 0 none processed results
        (splitLines text)) rest

/-- `extract_all_urls_from_pdf` from the source. -/
def extract_all_urls_from_pdf (pdfName : String) (pages : List String) : List UptimeRecord :=
  (processPages pdfName 0 ([], []) pages).2

/-- A declaration-marker line that actually sets a current target. -/
def setsTarget (line : String) : Bool :=
  hasSubStr "Probe, Group, Device:" line && (classifyURL line).isSome

/-!
## Aggregator: `calculate_downtime_statistics`

The source reads the two filtered CSV files row by row (CSV serialization
is an external collaborator; a file is modelled as an optional list of
rows, `none` when the file does not exist).  For each row, a present and
non-empty `uptime_segundos` / `downtime_segundos` field is parsed with
`int(...)` and added to the corresponding counter; a parse failure drops
that single field only.  The final percentage is computed in `ℚ` here
(the source uses Python float division; the claims under verification
concern the formula and the division-by-zero guard, not rounding).
-/

/-- The two fields of one CSV row that the aggregator reads; `none`
models an absent column. -/
structure CsvRow where
  uptime_segundos : Option String
  downtime_segundos : Option String
deriving DecidableEq

/-- Python `int(s)` on a string: optional surrounding whitespace, one
optional sign, then a non-empty digit run.  (Python also accepts
underscore digit grouping, which no input of this system produces.) -/
def pyIntOfString (s : String) : Option Int :=
  let l := pyStripChars s.data
  match l with
  | '-' :: ds =>
    if ds ≠ [] ∧ ds.all Char.isDigit then
      some (-(ds.foldl (fun a c => a * 10 + (c.toNat - 48)) 0 : Nat))
    else none
  | '+' :: ds =>
    if ds ≠ [] ∧ ds.all Char.isDigit then
      some ((ds.foldl (fun a c => a * 10 + (c.toNat - 48)) 0 : Nat))
    else none
  | ds =>
    if ds ≠ [] ∧ ds.all Char.isDigit then
      some ((ds.foldl (fun a c => a * 10 + (c.toNat - 48)) 0 : Nat))
    else none

/-- One `try: stats[...] += int(row[...]) except ValueError: pass` step:
a missing column, empty field or parse failure leaves the counter
unchanged. -/
def addField (acc : Int) (f : Option String) : Int :=
  match f with
  | none => acc
  | some s =>
    if s = "" then acc
    else
      match pyIntOfString s with
      | some v => acc + v
      | none => acc

/-- The row loop over one CSV file: accumulates the uptime and downtime
counters. -/
def readRows : List CsvRow → Int × Int → Int × Int
  | [], acc => acc
  | row :: rest, (u, d) =>
    readRows rest (addField u row.uptime_segundos, addField d row.downtime_segundos)

/-- The aggregated corpus statistics (the `stats` dict of the source). -/
structure DowntimeStats where
  main_url_uptime : Int
  main_url_downtime : Int
  ash_url_uptime : Int
  ash_url_downtime : Int
  total_time : Int
  ash_downtime_percentage : ℚ
deriving DecidableEq

/-- `calculate_downtime_statistics` from the source: counters start at
zero, a missing file contributes nothing, the total is the sum of all
four counters and the percentage is only computed when the total is
positive. -/
def calculate_downtime_statistics (mainRows ashRows : Option (List CsvRow)) : DowntimeStats :=
  let m := match mainRows with
    | some rows => readRows rows (0, 0)
    | none => (0, 0)
  let a := match ashRows with
    | some rows => readRows rows (0, 0)
    | none => (0, 0)
  let total : Int := m.1 + m.2 + a.1 + a.2
  { main_url_uptime := m.1, main_url_downtime := m.2,
    ash_url_uptime := a.1, ash_url_downtime := a.2,
    total_time := total,
    ash_downtime_percentage :=
      if 0 < total then ((a.2 : ℚ) / (total : ℚ)) * 100 else 0 }

/-- The per-row uptime contribution (the value `int(...)` adds, or 0). -/
def rowUp (row : CsvRow) : Int := addField 0 row.uptime_segundos

/-- The per-row downtime contribution. -/
def rowDown (row : CsvRow) : Int := addField 0 row.downtime_segundos

/-!
## Lemmas about the duration scanner
-/

theorem findCompAux_hit {u : Char} (hu : u.isDigit = false) (v : Nat) (l : List Char) :
    findCompAux u (some v) (u :: l) = some v := by
  simp [findCompAux, hu]

theorem findCompAux_reset {u c : Char} (hc : c.isDigit = false) (hne : c ≠ u)
    (acc : Option Nat) (l : List Char) :
    findCompAux u acc (c :: l) = findCompAux u none l := by
  simp [findCompAux, hc, hne]

theorem digitChar_isDigit {m : Nat} (h : m < 10) : (Nat.digitChar m).isDigit = true := by
  interval_cases m <;> decide

theorem digitChar_val {m : Nat} (h : m < 10) : (Nat.digitChar m).toNat - 48 = m := by
  interval_cases m <;> decide

theorem natDigits_ne_nil (n : Nat) : natDigits n ≠ [] := by
  rw [natDigits]
  split <;> simp

theorem findCompAux_digits (u : Char) :
    ∀ (n : Nat) (rest : List Char),
      findCompAux u none (natDigits n ++ rest) = findCompAux u (some n) rest := by
  intro n
  induction n using Nat.strong_induction_on with
  | _ n ih =>
    intro rest
    by_cases h : n < 10
    · rw [natDigits, dif_pos h]
      simp [findCompAux, digitChar_isDigit h, digitChar_val h]
    · rw [natDigits, dif_neg h, List.append_assoc, List.singleton_append,
        ih (n / 10) (Nat.div_lt_self (by omega) (by omega))]
      have hm : n % 10 < 10 := Nat.mod_lt _ (by omega)
      simp [findCompAux, digitChar_isDigit hm, digitChar_val hm]
      have : n / 10 * 10 + n % 10 = n := by omega
      rw [this]

theorem mk_ne_empty {l : List Char} (h : l ≠ []) : String.mk l ≠ "" := by
  intro hc
  exact h (congrArg String.data hc)

/-- C3: for every `s ≥ 0`, decoding the token rebuilt from the
day/hour/minute/second breakdown of `s` (each component a decimal
integer followed by its unit letter) gives back exactly `s`. -/
theorem claim_C3 (s : Nat) : duration_to_seconds (breakdownToken s) = s := by
  have hne : (breakdownToken s).data ≠ [] := by
    show (natDigits (s / 86400) ++ _) ≠ []
    simp [natDigits_ne_nil]
  rw [duration_to_seconds, if_neg (mk_ne_empty hne)]
  show (findCompAux 'd' none (natDigits (s / 86400) ++ _)).getD 0 * 86400 +
      (findCompAux 'h' none (natDigits (s / 86400) ++ _)).getD 0 * 3600 +
      (findCompAux 'm' none (natDigits (s / 86400) ++ _)).getD 0 * 60 +
      (findCompAux 's' none (natDigits (s / 86400) ++ _)).getD 0 = s
  rw [findCompAux_digits 'd', findCompAux_hit (by decide)]
  rw [findCompAux_digits 'h', findCompAux_reset (by decide) (by decide),
    findCompAux_reset (by decide) (by decide), findCompAux_digits 'h',
    findCompAux_hit (by decide)]
  rw [findCompAux_digits 'm', findCompAux_reset (by decide) (by decide),
    findCompAux_reset (by decide) (by decide), findCompAux_digits 'm',
    findCompAux_reset (by decide) (by decide), findCompAux_reset (by decide) (by decide),
    findCompAux_digits 'm', findCompAux_hit (by decide)]
  rw [findCompAux_digits 's', findCompAux_reset (by decide) (by decide),
    findCompAux_reset (by decide) (by decide), findCompAux_digits 's',
    findCompAux_reset (by decide) (by decide), findCompAux_reset (by decide) (by decide),
    findCompAux_digits 's', findCompAux_reset (by decide) (by decide),
    findCompAux_reset (by decide) (by decide), findCompAux_digits 's',
    findCompAux_hit (by decide)]
  simp only [Option.getD_some]
  omega

theorem findCompAux_digitless {u : Char} :
    ∀ l : List Char, (∀ c ∈ l, c.isDigit = false) → findCompAux u none l = none := by
  intro l
  induction l with
  | nil => simp [findCompAux]
  | cons c rest ih =>
    intro h
    have hc := h c (List.mem_cons_self _ _)
    simp only [findCompAux, hc, Bool.false_eq_true, if_false]
    split
    · exact ih fun c' h' => h c' (List.mem_cons_of_mem _ h')
    · exact ih fun c' h' => h c' (List.mem_cons_of_mem _ h')

theorem findVal_eq_none (u : Char) :
    ∀ ps : List (Nat × Char), u ∉ ps.map Prod.snd → findVal u ps = none := by
  intro ps
  induction ps with
  | nil => simp [findVal]
  | cons p rest ih =>
    intro h
    simp only [List.map_cons, List.mem_cons, not_or] at h
    have hne : p.2 ≠ u := fun hc => h.1 hc.symm
    simp only [findVal, hne, if_false, ite_false]
    exact ih h.2

theorem findCompAux_token {u : Char} (hu : u.isDigit = false) (hsp : u ≠ ' ') :
    ∀ ps : List (Nat × Char), (∀ p ∈ ps, (p.2 : Char).isDigit = false) →
      findCompAux u none (tokenChars ps) = findVal u ps := by
  intro ps
  induction ps with
  | nil => simp [tokenChars, findCompAux, findVal]
  | cons p rest ih =>
    intro hall
    have hp2 : (p.2 : Char).isDigit = false := hall p (List.mem_cons_self _ _)
    cases rest with
    | nil =>
      show findCompAux u none (natDigits p.1 ++ [p.2]) = findVal u [p]
      rw [findCompAux_digits]
      by_cases hc : p.2 = u
      · rw [hc, findCompAux_hit hu]
        simp [findVal, hc]
      · rw [findCompAux_reset hp2 hc]
        simp [findCompAux, findVal, hc]
    | cons q rest' =>
      show findCompAux u none (natDigits p.1 ++ p.2 :: ' ' :: tokenChars (q :: rest'))
          = findVal u (p :: q :: rest')
      rw [findCompAux_digits]
      by_cases hc : p.2 = u
      · rw [hc, findCompAux_hit hu]
        simp [findVal, hc]
      · rw [findCompAux_reset hp2 hc,
          findCompAux_reset (by decide) (fun h => hsp h.symm),
          ih fun p' h' => hall p' (List.mem_cons_of_mem _ h')]
        simp [findVal, hc]

theorem findVal_weight_sum :
    ∀ ps : List (Nat × Char),
      (∀ p ∈ ps, p.2 = 'd' ∨ p.2 = 'h' ∨ p.2 = 'm' ∨ p.2 = 's') →
      (ps.map Prod.snd).Nodup →
      (findVal 'd' ps).getD 0 * 86400 + (findVal 'h' ps).getD 0 * 3600 +
        (findVal 'm' ps).getD 0 * 60 + (findVal 's' ps).getD 0
        = (ps.map (fun p => p.1 * unitWeight p.2)).sum := by
  intro ps
  induction ps with
  | nil => simp [findVal]
  | cons p rest ih =>
    intro hall hnd
    obtain ⟨n, c⟩ := p
    simp only [List.map_cons, List.nodup_cons] at hnd
    obtain ⟨hna, hnd'⟩ := hnd
    have ihr := ih (fun q hq => hall q (List.mem_cons_of_mem _ hq)) hnd'
    have hc := hall ⟨n, c⟩ (List.mem_cons_self _ _)
    simp only at hc
    rcases hc with rfl | rfl | rfl | rfl
    · have h0 := findVal_eq_none 'd' rest hna
      simp only [h0, Option.getD_none] at ihr
      have hw : unitWeight 'd' = 86400 := by decide
      simp +decide only [findVal, List.map_cons, List.sum_cons, Option.getD_some, hw,
        if_true, if_false, ite_true, ite_false]
      omega
    · have h0 := findVal_eq_none 'h' rest hna
      simp only [h0, Option.getD_none] at ihr
      have hw : unitWeight 'h' = 3600 := by decide
      simp +decide only [findVal, List.map_cons, List.sum_cons, Option.getD_some, hw,
        if_true, if_false, ite_true, ite_false]
      omega
    · have h0 := findVal_eq_none 'm' rest hna
      simp only [h0, Option.getD_none] at ihr
      have hw : unitWeight 'm' = 60 := by decide
      simp +decide only [findVal, List.map_cons, List.sum_cons, Option.getD_some, hw,
        if_true, if_false, ite_true, ite_false]
      omega
    · have h0 := findVal_eq_none 's' rest hna
      simp only [h0, Option.getD_none] at ihr
      have hw : unitWeight 's' = 1 := by decide
      simp +decide only [findVal, List.map_cons, List.sum_cons, Option.getD_some, hw,
        if_true, if_false, ite_true, ite_false]
      omega

theorem tokenChars_cons_ne_nil (p : Nat × Char) (rest : List (Nat × Char)) :
    tokenChars (p :: rest) ≠ [] := by
  cases rest <;> simp [tokenChars, natDigits_ne_nil]

/-- C7: decoding a well-formed duration token (components in any order
and combination, each unit letter at most once, values unbounded) yields
the weighted sum of its components, with absent components contributing
zero; the empty token decodes to 0; a token without digits (no
recognizable component at all) decodes to 0 rather than failing. -/
theorem claim_C7 :
    (∀ ps : List (Nat × Char),
      (∀ p ∈ ps, p.2 = 'd' ∨ p.2 = 'h' ∨ p.2 = 'm' ∨ p.2 = 's') →
      (ps.map Prod.snd).Nodup →
      duration_to_seconds (String.mk (tokenChars ps))
        = (ps.map (fun p => p.1 * unitWeight p.2)).sum) ∧
    duration_to_seconds "" = 0 ∧
    (∀ s : String, (∀ c ∈ s.data, c.isDigit = false) → duration_to_seconds s = 0) := by
  refine ⟨?_, by decide, ?_⟩
  · intro ps hall hnd
    cases ps with
    | nil => simp +decide [tokenChars, duration_to_seconds]
    | cons p rest =>
      have hdig : ∀ q ∈ p :: rest, (q.2 : Char).isDigit = false := by
        intro q hq
        rcases hall q hq with h | h | h | h <;> rw [h] <;> decide
      rw [duration_to_seconds, if_neg (mk_ne_empty (tokenChars_cons_ne_nil p rest))]
      show (findCompAux 'd' none (tokenChars (p :: rest))).getD 0 * 86400 +
          (findCompAux 'h' none (tokenChars (p :: rest))).getD 0 * 3600 +
          (findCompAux 'm' none (tokenChars (p :: rest))).getD 0 * 60 +
          (findCompAux 's' none (tokenChars (p :: rest))).getD 0 = _
      rw [findCompAux_token (by decide) (by decide) _ hdig,
        findCompAux_token (by decide) (by decide) _ hdig,
        findCompAux_token (by decide) (by decide) _ hdig,
        findCompAux_token (by decide) (by decide) _ hdig]
      exact findVal_weight_sum _ hall hnd
  · intro s h
    rw [duration_to_seconds]
    split
    · rfl
    · rw [findCompAux_digitless s.data h, findCompAux_digitless s.data h,
        findCompAux_digitless s.data h, findCompAux_digitless s.data h]
      rfl

/-- Witness for C7 at the token "6d 23h 59m 41s" and at a digit-free
token. -/
theorem claim_C7_witness :
    duration_to_seconds (String.mk (tokenChars [(6, 'd'), (23, 'h'), (59, 'm'), (41, 's')]))
        = 604781 ∧
    duration_to_seconds (String.mk [' ', '[', ']']) = 0 := by
  constructor
  · have h := claim_C7.1 [(6, 'd'), (23, 'h'), (59, 'm'), (41, 's')] (by decide) (by decide)
    rw [h]
    decide
  · exact claim_C7.2.2 (String.mk [' ', '[', ']']) (by decide)

/-!
## C1: the end-to-end synthetic one-page document
-/

/-- The synthetic page of the end-to-end property: the declaration line
immediately followed by the statistics line. -/
def c1Page : String :=
  "Probe, Group, Device: > https://example.org/\nUptime Stats: Up: 99.50 % [06d 23h 59m 41s] Down: 0.50 % [00d 00h 10m 00s]"

/-- Counterexample to C1 as stated: on the claimed document the decoded
uptime is 604781 seconds (6·86400 + 23·3600 + 59·60 + 41), not 603581. -/
theorem claim_C1_cex :
    (extract_uptime_stats "report.pdf" [c1Page] "https://example.org/").map
        (fun r => duration_to_seconds r.uptime_duracion) = some 604781 ∧
    (extract_uptime_stats "report.pdf" [c1Page] "https://example.org/").map
        (fun r => duration_to_seconds r.uptime_duracion) ≠ some 603581 := by
  constructor
  · rfl
  · decide

/-- C1 (amended): the synthetic one-page document yields exactly one
record, whose decoded uptime is 604781 seconds and decoded downtime is
600 seconds. -/
theorem claim_C1 :
    (extract_uptime_stats "report.pdf" [c1Page] "https://example.org/").map
        (fun r => (duration_to_seconds r.uptime_duracion,
          duration_to_seconds r.downtime_duracion))
      = some (604781, 600) := by
  rfl

/-!
## C2: page iteration in single-target mode
-/

theorem firstSomeIdx_eq_none {α β : Type} (f : Nat → α → Option β) (d : α) :
    ∀ (xs : List α) (k : Nat),
      (∀ i, i < xs.length → f (k + i) (xs.getD i d) = none) →
      firstSomeIdx f k xs = none := by
  intro xs
  induction xs with
  | nil => intro k _; rfl
  | cons x rest ih =>
    intro k h
    have h0 : f k x = none := by
      have := h 0 (by simp)
      simpa using this
    show (match f k x with
      | some b => some b
      | none => firstSomeIdx f (k + 1) rest) = none
    rw [h0]
    apply ih
    intro i hi
    have := h (i + 1) (by simp; omega)
    have harith : k + (i + 1) = k + 1 + i := by omega
    rw [harith] at this
    simpa [List.getD] using this

theorem firstSomeIdx_append_some {α β : Type} (f : Nat → α → Option β) (d : α) :
    ∀ (xs : List α) (k : Nat) (y : α) (ys : List α) (b : β),
      (∀ i, i < xs.length → f (k + i) (xs.getD i d) = none) →
      f (k + xs.length) y = some b →
      firstSomeIdx f k (xs ++ y :: ys) = some b := by
  intro xs
  induction xs with
  | nil =>
    intro k y ys b _ hy
    simp only [List.length_nil, Nat.add_zero] at hy
    show (match f k y with
      | some b => some b
      | none => firstSomeIdx f (k + 1) ys) = some b
    rw [hy]
  | cons x rest ih =>
    intro k y ys b h hy
    have h0 : f k x = none := by
      have := h 0 (by simp)
      simpa using this
    show (match f k x with
      | some b => some b
      | none => firstSomeIdx f (k + 1) (rest ++ y :: ys)) = some b
    rw [h0]
    apply ih
    · intro i hi
      have := h (i + 1) (by simp; omega)
      have harith : k + (i + 1) = k + 1 + i := by omega
      rw [harith] at this
      simpa [List.getD] using this
    · have harith : k + (x :: rest).length = k + 1 + rest.length := by simp; omega
      rw [harith] at hy
      exact hy

/-- C2 (amended): single-target extraction scans the pages in order and
returns the first page's successful attempt; it returns no result only
when every page's attempt fails (a failed attempt on a page containing
the target does not stop the scan). -/
theorem claim_C2 :
    (∀ (pdfName target : String) (pages : List String),
      (∀ i, i < pages.length → tryPage pdfName target i (pages.getD i "") = none) →
      extract_uptime_stats pdfName pages target = none) ∧
    (∀ (pdfName target : String) (ps : List String) (t : String) (qs : List String)
        (r : UptimeRecord),
      (∀ i, i < ps.length → tryPage pdfName target i (ps.getD i "") = none) →
      tryPage pdfName target ps.length t = some r →
      extract_uptime_stats pdfName (ps ++ t :: qs) target = some r) := by
  constructor
  · intro pdfName target pages h
    apply firstSomeIdx_eq_none _ "" pages 0
    simpa using h
  · intro pdfName target ps t qs r h ht
    apply firstSomeIdx_append_some _ "" ps 0 t qs r
    · simpa using h
    · simpa using ht

/-- The first page of the C2 counterexample document: it contains the
target string but carries no declaration line, so its attempt fails. -/
def c2PageA : String := "See https://example.org/ status"

/-- The second page of the C2 counterexample document: a complete
declaration plus statistics block for the target. -/
def c2PageB : String :=
  "Probe, Group, Device: > https://example.org/\nUptime Stats: Up: 99 % [1h] Down: 1 % [30m]"

/-- Counterexample to C2 as stated: the first page containing the target
yields no match, yet the extraction still succeeds (from the second
page), so later pages ARE scanned and a result IS returned. -/
theorem claim_C2_cex :
    hasSubStr "https://example.org/" c2PageA = true ∧
    tryPage "report2.pdf" "https://example.org/" 0 c2PageA = none ∧
    extract_uptime_stats "report2.pdf" [c2PageA, c2PageB] "https://example.org/" ≠ none := by
  refine ⟨rfl, rfl, ?_⟩
  decide

/-- Witness for C2 (amended) on concrete documents: an all-fail document
returns nothing, and a failed first page followed by a successful second
page returns the second page's record with page number 2. -/
theorem claim_C2_witness :
    extract_uptime_stats "w.pdf" ["no target here"] "https://example.org/" = none ∧
    extract_uptime_stats "w2.pdf" ([c2PageA] ++ c2PageB :: []) "https://example.org/"
      = some ⟨"w2.pdf", "https://example.org/", "99", "%", "1h", "1", "%", "30m", 2,
          none, none, none, none⟩ := by
  constructor
  · exact claim_C2.1 "w.pdf" "https://example.org/" ["no target here"] (by decide)
  · exact claim_C2.2 "w2.pdf" "https://example.org/" [c2PageA] c2PageB []
      ⟨"w2.pdf", "https://example.org/", "99", "%", "1h", "1", "%", "30m", 2,
        none, none, none, none⟩ (by decide) (by rfl)

/-!
## C5: the single-target disambiguation guard
-/

/-- C5: a line containing either conflicting subpath marker, or not
ending (after stripping) exactly with the target, produces no record in
single-target mode, whatever the rest of the page looks like. -/
theorem claim_C5 (pdfName target : String) (pageNum : Nat) (lines : List String)
    (i : Nat) (line : String)
    (h : hasSubStr "/tramites" line = true ∨ hasSubStr "/educacion" line = true ∨
      pyEndsWith (pyStrip line) target = false) :
    tryLine pdfName target pageNum lines i line = none := by
  simp only [tryLine]
  split
  · have hB : (!hasSubStr "/tramites" line && !hasSubStr "/educacion" line
        && pyEndsWith (pyStrip line) target) = false := by
      rcases h with h | h | h <;> simp [h]
    rw [hB]
    simp
  · rfl

/-- Witness for C5: the target `https://buenosaires.gob.ar/` occurs in
the line only as a strict prefix of the longer listed subpath target
`.../tramites`; the guard rejects the line. -/
theorem claim_C5_witness :
    tryLine "r.pdf" "https://buenosaires.gob.ar/" 0
      ["Probe, Group, Device: > https://buenosaires.gob.ar/tramites"] 0
      "Probe, Group, Device: > https://buenosaires.gob.ar/tramites" = none :=
  claim_C5 "r.pdf" "https://buenosaires.gob.ar/" 0
    ["Probe, Group, Device: > https://buenosaires.gob.ar/tramites"] 0
    "Probe, Group, Device: > https://buenosaires.gob.ar/tramites"
    (Or.inl (by decide))

/-!
## C6: discovery-mode classification order
-/

theorem hasSubChars_iff_infix (n : List Char) :
    ∀ h : List Char, hasSubChars n h = true ↔ n <:+: h := by
  intro h
  induction h with
  | nil =>
    simp [hasSubChars, List.isEmpty_iff, List.infix_nil]
  | cons c t ih =>
    simp only [hasSubChars, Bool.or_eq_true, ih, List.isPrefixOf_iff_prefix,
      List.infix_cons_iff]

theorem hasSubStr_trans {a b c : String} (h1 : hasSubStr a b = true)
    (h2 : hasSubStr b c = true) : hasSubStr a c = true := by
  rw [hasSubStr, hasSubChars_iff_infix] at h1 h2 ⊢
  exact h1.trans h2

/-- Counterexample to C6 as stated: this line contains the (longer, more
specific) literal `buenosaires.gob.ar/tramites`, yet the classifier sets
the current target to the main URL, because the main-URL pattern is
checked first in the fixed `if/elif` order. -/
theorem claim_C6_cex :
    hasSubStr "buenosaires.gob.ar/tramites"
        "Probe, Group, Device: > https://buenosaires.gob.ar/tramites" = true ∧
    classifyURL "Probe, Group, Device: > https://buenosaires.gob.ar/tramites"
      = some "https://buenosaires.gob.ar/" ∧
    classifyURL "Probe, Group, Device: > https://buenosaires.gob.ar/tramites"
      ≠ some "buenosaires.gob.ar/tramites" := by
  refine ⟨by decide, by decide, by decide⟩

/-- C6 (amended): classification follows the fixed source order — the
main-URL form `"> https://buenosaires.gob.ar/"` is checked first, then
`tramites`, `educacion`, `nba-drupal`, `ash`; the first pattern in this
order that occurs in the line determines the current target (so a line
containing both the main-URL form and a longer subpath form classifies
as the main URL, not as the most specific literal). -/
theorem claim_C6 (line : String) :
    (hasSubStr "> https://buenosaires.gob.ar/" line = true →
      classifyURL line = some "https://buenosaires.gob.ar/") ∧
    (hasSubStr "> https://buenosaires.gob.ar/" line = false →
      hasSubStr "buenosaires.gob.ar/tramites" line = true →
      classifyURL line = some "buenosaires.gob.ar/tramites") ∧
    (hasSubStr "> https://buenosaires.gob.ar/" line = false →
      hasSubStr "buenosaires.gob.ar/tramites" line = false →
      hasSubStr "buenosaires.gob.ar/educacion" line = true →
      classifyURL line = some "buenosaires.gob.ar/educacion") ∧
    (hasSubStr "> https://buenosaires.gob.ar/" line = false →
      hasSubStr "buenosaires.gob.ar/tramites" line = false →
      hasSubStr "buenosaires.gob.ar/educacion" line = false →
      hasSubStr "nba-drupal.buenosaires.gob.ar" line = true →
      classifyURL line = some "nba-drupal.buenosaires.gob.ar") ∧
    (hasSubStr "> https://buenosaires.gob.ar/" line = false →
      hasSubStr "buenosaires.gob.ar/tramites" line = false →
      hasSubStr "buenosaires.gob.ar/educacion" line = false →
      hasSubStr "nba-drupal.buenosaires.gob.ar" line = false →
      hasSubStr "ash.buenosaires.gob.ar" line = true →
      classifyURL line = some "ash.buenosaires.gob.ar/") := by
  refine ⟨?_, ?_, ?_, ?_, ?_⟩
  · intro h1
    have hb : hasSubStr "buenosaires.gob.ar" line = true :=
      hasSubStr_trans (by decide) h1
    simp [classifyURL, hb, h1]
  · intro h1 h2
    have hb : hasSubStr "buenosaires.gob.ar" line = true :=
      hasSubStr_trans (by decide) h2
    simp [classifyURL, hb, h1, h2]
  · intro h1 h2 h3
    have hb : hasSubStr "buenosaires.gob.ar" line = true :=
      hasSubStr_trans (by decide) h3
    simp [classifyURL, hb, h1, h2, h3]
  · intro h1 h2 h3 h4
    have hb : hasSubStr "buenosaires.gob.ar" line = true :=
      hasSubStr_trans (by decide) h4
    simp [classifyURL, hb, h1, h2, h3, h4]
  · intro h1 h2 h3 h4 h5
    have hb : hasSubStr "buenosaires.gob.ar" line = true :=
      hasSubStr_trans (by decide) h5
    simp [classifyURL, hb, h1, h2, h3, h4, h5]

/-- Witness for C6 (amended): both a both-forms line (classified as the
main URL) and a tramites-only line (classified as the subpath target). -/
theorem claim_C6_witness :
    classifyURL "Probe, Group, Device: > https://buenosaires.gob.ar/ x"
      = some "https://buenosaires.gob.ar/" ∧
    classifyURL "Probe, Group, Device: > buenosaires.gob.ar/tramites"
      = some "buenosaires.gob.ar/tramites" := by
  constructor
  · exact (claim_C6 "Probe, Group, Device: > https://buenosaires.gob.ar/ x").1 (by decide)
  · exact (claim_C6 "Probe, Group, Device: > buenosaires.gob.ar/tramites").2.1
      (by decide) (by decide)

/-!
## Lemmas about the discovery loop
-/

theorem enrichLine_url (lines : List String) (r : UptimeRecord) (k : Nat) :
    (enrichLine lines r k).url = r.url := by
  unfold enrichLine
  split_ifs <;> rfl

theorem enrichRange_url (lines : List String) (lo hi : Nat) (r : UptimeRecord) :
    (enrichRange lines lo hi r).url = r.url := by
  unfold enrichRange
  generalize List.range' lo (hi - lo) = ks
  induction ks generalizing r with
  | nil => rfl
  | cons k ks ih => rw [List.foldl_cons, ih, enrichLine_url]

theorem contains_eq_false_of_not_mem {l : List String} {a : String} (h : a ∉ l) :
    l.contains a = false := by
  rw [Bool.eq_false_iff]
  intro hc
  exact h (List.elem_iff.mp hc)

theorem lineStep_inv (n : String) (ls : List String) (pn i : Nat) (cur : Option String)
    (pr : List String) (res : List UptimeRecord) (line : String)
    (h1 : ∀ r ∈ res, r.url ∈ pr) (h2 : (res.map UptimeRecord.url).Nodup) :
    (∀ r ∈ (lineStep n ls pn i cur pr res line).2.2,
        r.url ∈ (lineStep n ls pn i cur pr res line).2.1) ∧
    ((lineStep n ls pn i cur pr res line).2.2.map UptimeRecord.url).Nodup := by
  unfold lineStep
  by_cases hm : hasSubStr "Probe, Group, Device:" line = true
  · simp only [hm, if_true]
    exact ⟨h1, h2⟩
  · simp only [Bool.not_eq_true] at hm
    simp only [hm, Bool.false_eq_true, if_false]
    by_cases hs : hasSubStr "Uptime Stats:" line = true
    · simp only [hs, if_true]
      cases cur with
      | none => exact ⟨h1, h2⟩
      | some u =>
        dsimp only
        by_cases hu0 : u = ""
        · subst hu0
          rw [if_pos rfl]
          exact ⟨h1, h2⟩
        · rw [if_neg hu0]
          by_cases huc : pr.contains u = true
          · simp only [huc, if_true]
            exact ⟨h1, h2⟩
          · simp only [Bool.not_eq_true] at huc
            simp only [huc, Bool.false_eq_true, if_false]
            have hmem : u ∉ pr := fun hin => by
              have hel : pr.contains u = true := List.elem_iff.mpr hin
              rw [huc] at hel
              cases hel
            cases hup : searchUp line with
            | none => exact ⟨h1, h2⟩
            | some up =>
              cases hdn : searchDown line with
              | none => exact ⟨h1, h2⟩
              | some dn =>
                dsimp only
                constructor
                · intro r hr
                  rcases List.mem_append.mp hr with hold | hnew
                  · exact List.mem_append.mpr (Or.inl (h1 r hold))
                  · have hru : r.url = u := by
                      have heq := List.mem_singleton.mp hnew
                      rw [heq, enrichRange_url]
                    rw [hru]
                    exact List.mem_append.mpr (Or.inr (List.mem_singleton.mpr rfl))
                · rw [List.map_append, List.nodup_append]
                  refine ⟨h2, by simp, ?_⟩
                  simp only [List.map_cons, List.map_nil]
                  rw [List.disjoint_singleton]
                  simp only [enrichRange_url]
                  intro hin
                  rcases List.mem_map.mp hin with ⟨r, hr, hru⟩
                  exact hmem (hru ▸ h1 r hr)
    · simp only [Bool.not_eq_true] at hs
      simp only [hs, Bool.false_eq_true, if_false]
      exact ⟨h1, h2⟩

theorem processLines_inv (n : String) (ls : List String) (pn : Nat) :
    ∀ (suffix : List String) (i : Nat) (cur : Option String)
      (pr : List String) (res : List UptimeRecord),
      (∀ r ∈ res, r.url ∈ pr) → (res.map UptimeRecord.url).Nodup →
      (∀ r ∈ (processLines n ls pn i cur pr res suffix).2,
          r.url ∈ (processLines n ls pn i cur pr res suffix).1) ∧
      ((processLines n ls pn i cur pr res suffix).2.map UptimeRecord.url).Nodup := by
  intro suffix
  induction suffix with
  | nil =>
    intro i cur pr res h1 h2
    exact ⟨h1, h2⟩
  | cons line rest ih =>
    intro i cur pr res h1 h2
    have hstep := lineStep_inv n ls pn i cur pr res line h1 h2
    exact ih (i + 1) (lineStep n ls pn i cur pr res line).1
      (lineStep n ls pn i cur pr res line).2.1
      (lineStep n ls pn i cur pr res line).2.2 hstep.1 hstep.2

theorem processPages_inv (n : String) :
    ∀ (pages : List String) (k : Nat) (pr : List String) (res : List UptimeRecord),
      (∀ r ∈ res, r.url ∈ pr) → (res.map UptimeRecord.url).Nodup →
      (∀ r ∈ (processPages n k (pr, res) pages).2,
          r.url ∈ (processPages n k (pr, res) pages).1) ∧
      ((processPages n k (pr, res) pages).2.map UptimeRecord.url).Nodup := by
  intro pages
  induction pages with
  | nil =>
    intro k pr res h1 h2
    exact ⟨h1, h2⟩
  | cons text rest ih =>
    intro k pr res h1 h2
    have hpl := processLines_inv n (splitLines text) k (splitLines text) 0 none pr res h1 h2
    show (∀ r ∈ (processPages n (k + 1)
        (processLines n (splitLines text) k 0 none pr res (splitLines text)) rest).2, _) ∧ _
    have heq : processLines n (splitLines text) k 0 none pr res (splitLines text)
        = ((processLines n (splitLines text) k 0 none pr res (splitLines text)).1,
           (processLines n (splitLines text) k 0 none pr res (splitLines text)).2) := rfl
    rw [heq]
    exact ih (k + 1) _ _ hpl.1 hpl.2

/-- C4: in discovery mode at most one record is emitted per target
identity for a whole document — the list of urls of the extracted
records has no duplicates, across all pages (the de-duplication set
persists for the document). -/
theorem claim_C4 (pdfName : String) (pages : List String) :
    ((extract_all_urls_from_pdf pdfName pages).map UptimeRecord.url).Nodup := by
  have h := processPages_inv pdfName pages 0 [] [] (by simp) (by simp)
  exact h.2

theorem lineStep_inert_none (n : String) (ls : List String) (pn i : Nat)
    (pr : List String) (res : List UptimeRecord) (line : String)
    (h : setsTarget line = false) :
    lineStep n ls pn i none pr res line = (none, pr, res) := by
  unfold setsTarget at h
  unfold lineStep
  by_cases hm : hasSubStr "Probe, Group, Device:" line = true
  · rw [hm] at h
    simp only [Bool.true_and] at h
    have hcl : classifyURL line = none := Option.not_isSome_iff_eq_none.mp (by simp [h])
    simp [hm, hcl]
  · simp only [Bool.not_eq_true] at hm
    simp only [hm, Bool.false_eq_true, if_false]
    split <;> rfl

theorem lineStep_marker_unrecognized (n : String) (ls : List String) (pn i : Nat)
    (cur : Option String) (pr : List String) (res : List UptimeRecord) (line : String)
    (hm : hasSubStr "Probe, Group, Device:" line = true)
    (hcl : classifyURL line = none) :
    lineStep n ls pn i cur pr res line = (cur, pr, res) := by
  unfold lineStep
  simp [hm, hcl]

theorem processLines_inert (n : String) (ls : List String) (pn : Nat) :
    ∀ (pre rest : List String) (i : Nat) (pr : List String) (res : List UptimeRecord),
      (∀ l ∈ pre, setsTarget l = false) →
      processLines n ls pn i none pr res (pre ++ rest)
        = processLines n ls pn (i + pre.length) none pr res rest := by
  intro pre
  induction pre with
  | nil =>
    intro rest i pr res _
    simp
  | cons l pre ih =>
    intro rest i pr res h
    have h0 := lineStep_inert_none n ls pn i pr res l (h l (List.mem_cons_self _ _))
    show processLines n ls pn (i + 1)
        (lineStep n ls pn i none pr res l).1
        (lineStep n ls pn i none pr res l).2.1
        (lineStep n ls pn i none pr res l).2.2 (pre ++ rest) = _
    rw [h0]
    rw [ih rest (i + 1) pr res (fun l' hl' => h l' (List.mem_cons_of_mem _ hl'))]
    have : i + 1 + pre.length = i + (l :: pre).length := by simp; omega
    rw [this]

theorem processPages_append (n : String) :
    ∀ (xs ys : List String) (k : Nat) (st : List String × List UptimeRecord),
      processPages n k st (xs ++ ys)
        = processPages n (k + xs.length) (processPages n k st xs) ys := by
  intro xs
  induction xs with
  | nil =>
    intro ys k st
    simp only [List.nil_append, List.length_nil, Nat.add_zero]
    rfl
  | cons x xs ih =>
    intro ys k st
    obtain ⟨pr, res⟩ := st
    show processPages n (k + 1) _ (xs ++ ys) = _
    rw [ih]
    have : k + 1 + xs.length = k + (x :: xs).length := by simp; omega
    rw [this]
    rfl

/-- C9: the current target is reset at the start of every page while the
de-duplication set persists.  First: a run of lines none of which sets a
target, entered with no current target, changes nothing (in particular a
statistics line before any target-setting declaration line of the page
emits no record, whatever the de-duplication state from earlier pages).
Second, at document level: appending a page without any target-setting
line leaves the extraction result of the earlier pages unchanged, even
when earlier pages declared known targets that were never recorded. -/
theorem claim_C9 :
    (∀ (pdfName : String) (allLines : List String) (pageNum i : Nat)
        (processed : List String) (results : List UptimeRecord)
        (pre rest : List String),
      (∀ l ∈ pre, setsTarget l = false) →
      processLines pdfName allLines pageNum i none processed results (pre ++ rest)
        = processLines pdfName allLines pageNum (i + pre.length) none processed results rest) ∧
    (∀ (pdfName : String) (earlier : List String) (p : String),
      (∀ l ∈ splitLines p, setsTarget l = false) →
      extract_all_urls_from_pdf pdfName (earlier ++ [p])
        = extract_all_urls_from_pdf pdfName earlier) := by
  constructor
  · intro pdfName allLines pageNum i processed results pre rest h
    exact processLines_inert pdfName allLines pageNum pre rest i processed results h
  · intro pdfName earlier p h
    unfold extract_all_urls_from_pdf
    rw [processPages_append]
    have key : ∀ (k : Nat) (pr : List String) (res : List UptimeRecord),
        processPages pdfName k (pr, res) [p] = (pr, res) := by
      intro k pr res
      show processPages pdfName (k + 1)
          (processLines pdfName (splitLines p) k 0 none pr res (splitLines p)) [] = _
      have h2 : processLines pdfName (splitLines p) k 0 none pr res (splitLines p)
          = (pr, res) := by
        have h3 := processLines_inert pdfName (splitLines p) k (splitLines p) [] 0 pr res h
        rw [List.append_nil] at h3
        rw [h3]
        rfl
      rw [h2]
      rfl
    have heta : processPages pdfName 0 ([], []) earlier
        = ((processPages pdfName 0 ([], []) earlier).1,
           (processPages pdfName 0 ([], []) earlier).2) := rfl
    rw [heta, key]

/-- Witness for C9: a declaration-only first page followed by a
statistics-only second page yields the same (empty) record set as the
first page alone — the page-2 statistics line is not attributed to the
page-1 target; and the in-page lemma applied to that statistics line. -/
theorem claim_C9_witness :
    extract_all_urls_from_pdf "w9.pdf"
        (["Probe, Group, Device: > https://buenosaires.gob.ar/"]
          ++ ["Uptime Stats: Up: 99 % [1h] Down: 1 % [30m]"])
      = extract_all_urls_from_pdf "w9.pdf"
          ["Probe, Group, Device: > https://buenosaires.gob.ar/"] ∧
    processLines "w9.pdf" ["Uptime Stats: Up: 99 % [1h] Down: 1 % [30m]"] 1 0 none
        ["https://buenosaires.gob.ar/"] []
        (["Uptime Stats: Up: 99 % [1h] Down: 1 % [30m]"] ++ [])
      = processLines "w9.pdf" ["Uptime Stats: Up: 99 % [1h] Down: 1 % [30m]"] 1
          (0 + ["Uptime Stats: Up: 99 % [1h] Down: 1 % [30m]"].length) none
          ["https://buenosaires.gob.ar/"] [] [] := by
  constructor
  · exact claim_C9.2 "w9.pdf" ["Probe, Group, Device: > https://buenosaires.gob.ar/"]
      "Uptime Stats: Up: 99 % [1h] Down: 1 % [30m]" (by decide)
  · exact claim_C9.1 "w9.pdf" ["Uptime Stats: Up: 99 % [1h] Down: 1 % [30m]"] 1 0
      ["https://buenosaires.gob.ar/"] []
      ["Uptime Stats: Up: 99 % [1h] Down: 1 % [30m]"] [] (by decide)

theorem processLines_cons (n : String) (ls : List String) (pn i : Nat)
    (cur : Option String) (pr : List String) (res : List UptimeRecord)
    (line : String) (rest : List String) :
    processLines n ls pn i cur pr res (line :: rest)
      = processLines n ls pn (i + 1)
          (lineStep n ls pn i cur pr res line).1
          (lineStep n ls pn i cur pr res line).2.1
          (lineStep n ls pn i cur pr res line).2.2 rest := rfl

/-- C10: a declaration-marker line carrying no recognized target literal
leaves the current target unchanged (it does not clear it).  First: such
a line is a no-op of the per-line loop for any state.  Second: on a page
where a recognized declaration of target `A` is followed by an
unrecognized declaration line and then a parsable statistics line, the
statistics line is extracted and attributed to `A`. -/
theorem claim_C10 :
    (∀ (pdfName : String) (allLines : List String) (pageNum i : Nat)
        (cur : Option String) (processed : List String) (results : List UptimeRecord)
        (line : String) (rest : List String),
      hasSubStr "Probe, Group, Device:" line = true →
      classifyURL line = none →
      processLines pdfName allLines pageNum i cur processed results (line :: rest)
        = processLines pdfName allLines pageNum (i + 1) cur processed results rest) ∧
    (∀ (pdfName : String) (pageNum : Nat) (processed : List String)
        (results : List UptimeRecord) (declA middle statsLine A p1 d1 p2 d2 : String),
      hasSubStr "Probe, Group, Device:" declA = true →
      classifyURL declA = some A →
      hasSubStr "Probe, Group, Device:" middle = true →
      classifyURL middle = none →
      hasSubStr "Probe, Group, Device:" statsLine = false →
      hasSubStr "Uptime Stats:" statsLine = true →
      searchUp statsLine = some (p1, d1) →
      searchDown statsLine = some (p2, d2) →
      A ≠ "" →
      A ∉ processed →
      ∃ r : UptimeRecord,
        (processLines pdfName [declA, middle, statsLine] pageNum 0 none processed results
            [declA, middle, statsLine]).2 = results ++ [r] ∧ r.url = A) := by
  constructor
  · intro pdfName allLines pageNum i cur processed results line rest hm hcl
    rw [processLines_cons,
      lineStep_marker_unrecognized pdfName allLines pageNum i cur processed results line hm hcl]
  · intro pdfName pageNum processed results declA middle statsLine A p1 d1 p2 d2
      hmA hclA hmM hclM hmS hsS hup hdn hne hnm
    have hc : processed.contains A = false := contains_eq_false_of_not_mem hnm
    have s1 : lineStep pdfName [declA, middle, statsLine] pageNum 0 none processed results declA
        = (some A, processed, results) := by
      unfold lineStep
      simp [hmA, hclA]
    have s3 : lineStep pdfName [declA, middle, statsLine] pageNum 2 (some A) processed results
        statsLine
        = (some A, processed ++ [A],
            results ++ [enrichRange [declA, middle, statsLine] (2 - 10)
              (min (2 + 10) ([declA, middle, statsLine] : List String).length)
              { archivo_pdf := pdfName, url := A,
                uptime_porcentaje := p1, uptime_unidad := "%", uptime_duracion := d1,
                downtime_porcentaje := p2, downtime_unidad := "%", downtime_duracion := d2,
                pagina := pageNum + 1,
                periodo_reporte := none, horas_reporte := none,
                tipo_sensor := none, tiempo_carga_promedio := none }]) := by
      unfold lineStep
      simp [hmS, hsS, hne, hc, hup, hdn, hnm]
    rw [processLines_cons, s1]
    dsimp only
    rw [processLines_cons,
      lineStep_marker_unrecognized pdfName [declA, middle, statsLine] pageNum 1 (some A)
        processed results middle hmM hclM]
    dsimp only
    rw [processLines_cons, s3]
    dsimp only
    refine ⟨_, rfl, ?_⟩
    exact enrichRange_url _ _ _ _

/-- Witness for C10: a recognized declaration, an unrecognized
declaration, then a statistics line — one record, attributed to the
recognized target. -/
theorem claim_C10_witness :
    ∃ r : UptimeRecord,
      (processLines "w10.pdf"
          ["Probe, Group, Device: > https://buenosaires.gob.ar/",
            "Probe, Group, Device: > https://unknown.example.com/",
            "Uptime Stats: Up: 99 % [1h] Down: 1 % [30m]"] 0 0 none [] []
          ["Probe, Group, Device: > https://buenosaires.gob.ar/",
            "Probe, Group, Device: > https://unknown.example.com/",
            "Uptime Stats: Up: 99 % [1h] Down: 1 % [30m]"]).2
        = [] ++ [r] ∧ r.url = "https://buenosaires.gob.ar/" :=
  claim_C10.2 "w10.pdf" 0 [] []
    "Probe, Group, Device: > https://buenosaires.gob.ar/"
    "Probe, Group, Device: > https://unknown.example.com/"
    "Uptime Stats: Up: 99 % [1h] Down: 1 % [30m]"
    "https://buenosaires.gob.ar/" "99" "1h" "1" "30m"
    (by decide) (by decide) (by decide) (by decide) (by decide) (by decide)
    (by decide) (by decide) (by decide) (by decide)

/-!
## C8: the aggregator
-/

theorem readRows_sum :
    ∀ (rows : List CsvRow) (u d : Int),
      readRows rows (u, d)
        = (u + (rows.map rowUp).sum, d + (rows.map rowDown).sum) := by
  intro rows
  induction rows with
  | nil => intro u d; simp [readRows]
  | cons row rest ih =>
    intro u d
    rw [readRows, ih]
    have hu : addField u row.uptime_segundos = u + rowUp row := by
      unfold addField rowUp addField
      cases row.uptime_segundos with
      | none => simp
      | some s =>
        by_cases hs : s = ""
        · simp [hs]
        · simp only [hs, if_false, ite_false]
          cases pyIntOfString s <;> simp
    have hd : addField d row.downtime_segundos = d + rowDown row := by
      unfold addField rowDown addField
      cases row.downtime_segundos with
      | none => simp
      | some s =>
        by_cases hs : s = ""
        · simp [hs]
        · simp only [hs, if_false, ite_false]
          cases pyIntOfString s <;> simp
    rw [hu, hd]
    simp only [List.map_cons, List.sum_cons, Prod.mk.injEq]
    constructor <;> ring

/-- C8: the aggregate is a pure function of the two row collections;
empty or missing collections give all-zero statistics with percentage 0
(no division error); each counter is the sum of its own parsed column;
the total is the sum of the four counters; the percentage is
`ash_downtime / total * 100` exactly when the total is positive and 0
when the total is 0. -/
theorem claim_C8 :
    calculate_downtime_statistics (some []) (some []) = ⟨0, 0, 0, 0, 0, 0⟩ ∧
    calculate_downtime_statistics none none = ⟨0, 0, 0, 0, 0, 0⟩ ∧
    calculate_downtime_statistics none (some []) = ⟨0, 0, 0, 0, 0, 0⟩ ∧
    calculate_downtime_statistics (some []) none = ⟨0, 0, 0, 0, 0, 0⟩ ∧
    (∀ m a : Option (List CsvRow),
      (calculate_downtime_statistics m a).total_time
          = (calculate_downtime_statistics m a).main_url_uptime
            + (calculate_downtime_statistics m a).main_url_downtime
            + (calculate_downtime_statistics m a).ash_url_uptime
            + (calculate_downtime_statistics m a).ash_url_downtime ∧
      (calculate_downtime_statistics m a).main_url_uptime
          = ((m.getD []).map rowUp).sum ∧
      (calculate_downtime_statistics m a).main_url_downtime
          = ((m.getD []).map rowDown).sum ∧
      (calculate_downtime_statistics m a).ash_url_uptime
          = ((a.getD []).map rowUp).sum ∧
      (calculate_downtime_statistics m a).ash_url_downtime
          = ((a.getD []).map rowDown).sum ∧
      ((calculate_downtime_statistics m a).total_time = 0 →
        (calculate_downtime_statistics m a).ash_downtime_percentage = 0) ∧
      (0 < (calculate_downtime_statistics m a).total_time →
        (calculate_downtime_statistics m a).ash_downtime_percentage
          = ((calculate_downtime_statistics m a).ash_url_downtime : ℚ)
            / ((calculate_downtime_statistics m a).total_time : ℚ) * 100)) := by
  refine ⟨by decide, by decide, by decide, by decide, ?_⟩
  intro m a
  have hm : (match m with
      | some rows => readRows rows (0, 0)
      | none => ((0 : Int), (0 : Int)))
      = (((m.getD []).map rowUp).sum, ((m.getD []).map rowDown).sum) := by
    cases m with
    | none => simp
    | some rows =>
      dsimp only
      rw [readRows_sum]
      simp
  have ha : (match a with
      | some rows => readRows rows (0, 0)
      | none => ((0 : Int), (0 : Int)))
      = (((a.getD []).map rowUp).sum, ((a.getD []).map rowDown).sum) := by
    cases a with
    | none => simp
    | some rows =>
      dsimp only
      rw [readRows_sum]
      simp
  unfold calculate_downtime_statistics
  rw [hm, ha]
  dsimp only
  refine ⟨rfl, rfl, rfl, rfl, rfl, ?_, ?_⟩
  · intro h0
    rw [h0]
    simp
  · intro hpos
    rw [if_pos hpos]

/-- Witness for C8: a positive-total instance satisfies the percentage
formula, and the empty-collections instance has percentage 0. -/
theorem claim_C8_witness :
    (calculate_downtime_statistics (some [⟨some "10", some "2"⟩])
        (some [⟨some "20", some "8"⟩])).ash_downtime_percentage
      = ((calculate_downtime_statistics (some [⟨some "10", some "2"⟩])
            (some [⟨some "20", some "8"⟩])).ash_url_downtime : ℚ)
        / ((calculate_downtime_statistics (some [⟨some "10", some "2"⟩])
            (some [⟨some "20", some "8"⟩])).total_time : ℚ) * 100 ∧
    (calculate_downtime_statistics (some []) (some [])).ash_downtime_percentage = 0 := by
  constructor
  · exact (claim_C8.2.2.2.2 (some [⟨some "10", some "2"⟩])
      (some [⟨some "20", some "8"⟩])).2.2.2.2.2.2 (by decide)
  · exact (claim_C8.2.2.2.2 (some []) (some [])).2.2.2.2.2.1 (by decide)
